import Mathlib

/-
Shallow embedding of the `leave` utility (src/main.rs): given a working
directory and a list of names to preserve, it deletes every other entry
directly inside that directory.

Modelling conventions:
* A path is a list of components plus a flag saying whether it is absolute.
  Rust std::path::absolute is lexical: a relative path is prepended with the
  current directory, then the component iteration drops "." components and
  keeps ".." components; an absolute path is represented by the component
  list after the root, so the root itself is the empty list.
* File kinds are the kinds reported by DirEntry::file_type, which does not
  follow symlinks: a symlink reports kind symlink even when its target is a
  directory (the Bool it carries records that target kind; the code never
  consults it).
* I/O is idealised: existence checks are a total oracle, directory listing
  and individual remove calls succeed, so the only per-entry failures are the
  ones produced by the directory-removal policy in delete_dir.  Whole-run
  errors in main_fallible are all raised before the removal loop runs, so a
  run that returns an error leaves the directory contents unchanged; the
  leave_run wrapper makes that explicit.
* Exit codes: 0 for ExitCode::SUCCESS, 1 for ExitCode::FAILURE.
-/

namespace Leave

/-- File kind as reported by DirEntry::file_type (lstat semantics: a symlink
reports kind symlink, never the kind of its target).  A directory records
whether its immediate contents are empty; a symlink records whether its
target is a directory. -/
inductive FileKind where
  | file
  | dir (isEmpty : Bool)
  | symlink (targetIsDir : Bool)
  | other
deriving DecidableEq

/-- FileType::is_dir on the kind returned by DirEntry::file_type: true only
for an actual directory, false for a symlink even when it points at one. -/
def FileKind.is_dir : FileKind → Bool
  | .dir _ => true
  | _ => false

/-- A top-level entry of the working directory, as produced by fs::read_dir. -/
structure Entry where
  name : String
  kind : FileKind
deriving DecidableEq

/-- A user-supplied path: the raw component list plus whether it starts at the
filesystem root. -/
structure RawPath where
  isAbs : Bool
  comps : List String
deriving DecidableEq

/-- The parsed CLI options (struct CliOptions in main.rs); the chdir override
is modelled by passing the working directory explicitly. -/
structure CliOptions where
  files : List RawPath
  recursive : Bool
  dirs : Bool
  force : Bool
deriving DecidableEq

def MISTAKE_MSG : String :=
  "This is likely a mistake. To continue anyways, use -f/--force."

/-- Display of a raw path, as Path::display renders it. -/
def RawPath.display (p : RawPath) : String :=
  (if p.isAbs then "/" else "") ++ String.intercalate "/" p.comps

/-- Rust std::path::absolute: prepend the working directory when the path is
relative, then drop "." components (".." components are kept, per the
documented lexical behaviour).  The result is an absolute path, written as
its component list after the root. -/
def path_absolute (cwd : List String) (p : RawPath) : List String :=
  if p.isAbs then p.comps.filter (fun c => c ≠ ".")
  else (cwd ++ p.comps).filter (fun c => c ≠ ".")

/-- Path::parent on an absolute path: none at the root, otherwise the path
minus its last component. -/
def parentPath (p : List String) : Option (List String) :=
  if p.isEmpty then none else some p.dropLast

/-- std::path::absolute of the path "." (main.rs line 105). -/
def cwd_absolute (cwd : List String) : List String :=
  path_absolute cwd ⟨false, ["."]⟩

/-- The diagnostic raised by the containment gate for an offending target
(main.rs line 113). -/
def containment_msg (p : RawPath) : String :=
  p.display ++ " is not in the current directory; it would be removed anyways. "
    ++ MISTAKE_MSG

/-- One step of the map at main.rs lines 110-116: make the target absolute and
reject it when its parent exists and differs from the working directory. -/
def check_containment (cwd : List String) (p : RawPath) :
    Except String (List String) :=
  match parentPath (path_absolute cwd p) with
  | some par =>
    if par ≠ cwd_absolute cwd then .error (containment_msg p)
    else .ok (path_absolute cwd p)
  | none => .ok (path_absolute cwd p)

/-- The collect::<Result<..>> at main.rs line 117: first failing target wins,
in list order; on success the preserve set is the list of absolute paths
(HashSet membership coincides with list membership). -/
def containment_gate (cwd : List String) : List RawPath →
    Except String (List (List String))
  | [] => .ok []
  | p :: rest =>
    match check_containment cwd p with
    | .error m => .error m
    | .ok abs_path =>
      match containment_gate cwd rest with
      | .error m => .error m
      | .ok l => .ok (abs_path :: l)

/-- The warnings printed by the existence loop at main.rs lines 89-98: one per
missing target, all targets checked; nothing is printed when force is set or
when the list is empty (the empty-list bail happens first). -/
def existence_warnings (cli : CliOptions) (ex : RawPath → Bool) :
    List RawPath :=
  if cli.force then []
  else if cli.files.isEmpty then []
  else cli.files.filter (fun a => !ex a)

/-- delete_dir (main.rs lines 165-189): recursive deletion succeeds
unconditionally; otherwise with the dirs flag only an empty directory may be
removed; otherwise no directory may be removed.  The directory listing used
for the emptiness check is idealised to succeed. -/
def delete_dir (cli : CliOptions) (isEmpty : Bool) : Except String Unit :=
  if cli.recursive then .ok ()
  else if !cli.dirs then .error "Is a directory"
  else if isEmpty then .ok ()
  else .error "Directory is not empty"

/-- Absolute path of a scanned entry: fs::read_dir of the path "." yields
entry paths of the form ./name, which process_entry makes absolute. -/
def entry_abs (cwd : List String) (e : Entry) : List String :=
  path_absolute cwd ⟨false, [".", e.name]⟩

/-- Outcome of process_entry for one scanned entry. -/
inductive EntryOutcome where
  | skipped
  | deleted
  | failed (msg : String)
deriving DecidableEq

/-- Whether an Except value is a success (Result::is_ok). -/
def isOkB {α : Type} (e : Except String α) : Bool :=
  match e with
  | .ok _ => true
  | .error _ => false

/-- process_entry (main.rs lines 137-162): skip the entry when its absolute
path is in the preserve set; otherwise apply delete_dir to a directory and
remove any other kind directly (fs::remove_file, idealised to succeed). -/
def process_entry (cli : CliOptions) (absolute_files : List (List String))
    (cwd : List String) (e : Entry) : EntryOutcome :=
  if entry_abs cwd e ∈ absolute_files then .skipped
  else
    match e.kind with
    | .dir isEmpty =>
      match delete_dir cli isEmpty with
      | .ok _ => .deleted
      | .error m => .failed ("Cannot remove ./" ++ e.name ++ ": " ++ m)
    | _ => .deleted

/-- The removal loop at main.rs lines 119-128: process every entry in order,
recording failures without stopping; returns the surviving entries and the
had_failure flag. -/
def run_scan (cli : CliOptions) (pset : List (List String))
    (cwd : List String) : List Entry → List Entry × Bool
  | [] => ([], false)
  | e :: rest =>
    match process_entry cli pset cwd e with
    | .skipped =>
      (e :: (run_scan cli pset cwd rest).1, (run_scan cli pset cwd rest).2)
    | .deleted => run_scan cli pset cwd rest
    | .failed _ => (e :: (run_scan cli pset cwd rest).1, true)

/-- main_fallible (main.rs lines 72-135): existence gate (unless forced),
then containment gate, then the removal loop.  On success it returns the
final contents and the had_failure flag. -/
def main_fallible (cli : CliOptions) (cwd : List String) (ex : RawPath → Bool)
    (contents : List Entry) : Except String (List Entry × Bool) :=
  if !cli.force && cli.files.isEmpty then
    .error ("No files provided. " ++ MISTAKE_MSG)
  else if !cli.force && cli.files.any (fun a => !ex a) then
    .error ("One or more provided files do not exist. " ++ MISTAKE_MSG)
  else
    match containment_gate cwd cli.files with
    | .error m => .error m
    | .ok absolute_files => .ok (run_scan cli absolute_files cwd contents)

/-- main (main.rs lines 58-66): final contents and exit code.  Every error in
main_fallible is raised before the removal loop, so an erroring run leaves
the contents unchanged and exits 1; a clean run exits 0 and a run with
per-entry failures exits 1. -/
def leave_run (cli : CliOptions) (cwd : List String) (ex : RawPath → Bool)
    (contents : List Entry) : List Entry × Nat :=
  match main_fallible cli cwd ex contents with
  | .error _ => (contents, 1)
  | .ok (final, hadFailure) => (final, if hadFailure then 1 else 0)

/-! ## Helper lemmas -/

theorem cwd_absolute_eq (cwd : List String) :
    cwd_absolute cwd = cwd.filter (fun c => c ≠ ".") := by
  simp [cwd_absolute, path_absolute]

theorem parentPath_concat (l : List String) (a : String) :
    parentPath (l ++ [a]) = some l := by
  simp [parentPath]

theorem path_absolute_single (cwd : List String) (a : String) (ha : a ≠ ".") :
    path_absolute cwd ⟨false, [a]⟩ = cwd_absolute cwd ++ [a] := by
  simp [path_absolute, cwd_absolute_eq, List.filter_append, ha]

theorem path_absolute_pair (cwd : List String) (a b : String)
    (ha : a ≠ ".") (hb : b ≠ ".") :
    path_absolute cwd ⟨false, [a, b]⟩ = cwd_absolute cwd ++ [a, b] := by
  simp [path_absolute, cwd_absolute_eq, List.filter_append, ha, hb]

theorem check_containment_single_ok (cwd : List String) (a : String)
    (ha : a ≠ ".") :
    check_containment cwd ⟨false, [a]⟩ = .ok (cwd_absolute cwd ++ [a]) := by
  unfold check_containment
  rw [path_absolute_single cwd a ha, parentPath_concat]
  simp

theorem check_containment_pair_err (cwd : List String) (a b : String)
    (ha : a ≠ ".") (hb : b ≠ ".") :
    check_containment cwd ⟨false, [a, b]⟩ =
      .error (containment_msg ⟨false, [a, b]⟩) := by
  unfold check_containment
  rw [path_absolute_pair cwd a b ha hb]
  have h1 : cwd_absolute cwd ++ [a, b] = (cwd_absolute cwd ++ [a]) ++ [b] := by
    simp
  rw [h1, parentPath_concat]
  have h2 : cwd_absolute cwd ++ [a] ≠ cwd_absolute cwd := by
    intro h
    have := congrArg List.length h
    simp at this
  simp [h2]

theorem check_containment_err_msg (cwd : List String) (p : RawPath)
    (m : String) (h : check_containment cwd p = .error m) :
    m = containment_msg p := by
  unfold check_containment at h
  rcases hp : parentPath (path_absolute cwd p) with _ | par <;>
    rw [hp] at h <;> dsimp only at h
  · exact Except.noConfusion h
  · by_cases hpar : par ≠ cwd_absolute cwd
    · rw [if_pos hpar] at h
      injection h with h
      exact h.symm
    · rw [if_neg hpar] at h
      exact Except.noConfusion h

theorem check_containment_ok_parent (cwd : List String) (p : RawPath)
    (x : List String) (h : check_containment cwd p = .ok x) :
    parentPath x = some (cwd_absolute cwd) ∨ parentPath x = none := by
  unfold check_containment at h
  rcases hp : parentPath (path_absolute cwd p) with _ | par <;>
    rw [hp] at h <;> dsimp only at h
  · injection h with h
    right
    rw [← h]
    exact hp
  · by_cases hpar : par ≠ cwd_absolute cwd
    · rw [if_pos hpar] at h
      exact Except.noConfusion h
    · rw [if_neg hpar] at h
      injection h with h
      left
      rw [← h, hp]
      push_neg at hpar
      rw [hpar]

theorem check_containment_err_of_parent (cwd : List String) (p : RawPath)
    (q : List String) (hq : parentPath (path_absolute cwd p) = some q)
    (hne : q ≠ cwd_absolute cwd) :
    check_containment cwd p = .error (containment_msg p) := by
  unfold check_containment
  rw [hq]
  dsimp only
  rw [if_pos hne]

theorem containment_gate_error_total (cwd : List String) (files : List RawPath)
    (h : ∃ p ∈ files, check_containment cwd p = .error (containment_msg p)) :
    ∃ p0 ∈ files, containment_gate cwd files = .error (containment_msg p0) := by
  induction files with
  | nil => rcases h with ⟨p, hp, _⟩; exact absurd hp (List.not_mem_nil p)
  | cons f rest ih =>
    rcases hc : check_containment cwd f with m | x
    · refine ⟨f, List.mem_cons_self f rest, ?_⟩
      have hm := check_containment_err_msg cwd f m hc
      unfold containment_gate
      rw [hc, hm]
    · rcases h with ⟨p, hp, hperr⟩
      rcases List.mem_cons.mp hp with rfl | hp
      · rw [hc] at hperr; exact Except.noConfusion hperr
      · rcases ih ⟨p, hp, hperr⟩ with ⟨p0, hp0, hgate⟩
        refine ⟨p0, List.mem_cons_of_mem f hp0, ?_⟩
        unfold containment_gate
        rw [hc, hgate]

theorem containment_gate_ok_all (cwd : List String) (files : List RawPath)
    (pset : List (List String)) (h : containment_gate cwd files = .ok pset) :
    ∀ x ∈ pset, ∃ p ∈ files, check_containment cwd p = .ok x := by
  induction files generalizing pset with
  | nil =>
    unfold containment_gate at h
    injection h with h
    subst h
    intro x hx
    exact absurd hx (List.not_mem_nil x)
  | cons f rest ih =>
    unfold containment_gate at h
    rcases hc : check_containment cwd f with m | a <;> rw [hc] at h
    · exact Except.noConfusion h
    · rcases hg : containment_gate cwd rest with m | l <;> rw [hg] at h
      · exact Except.noConfusion h
      · injection h with h
        subst h
        intro x hx
        rcases List.mem_cons.mp hx with rfl | hx
        · exact ⟨f, List.mem_cons_self f rest, hc⟩
        · rcases ih l hg x hx with ⟨p, hp, hcp⟩
          exact ⟨p, List.mem_cons_of_mem f hp, hcp⟩

theorem main_fallible_after_gates (cli : CliOptions) (cwd : List String)
    (ex : RawPath → Bool) (contents : List Entry)
    (hex : cli.force = true ∨ (cli.files ≠ [] ∧ ∀ a ∈ cli.files, ex a = true)) :
    main_fallible cli cwd ex contents =
      match containment_gate cwd cli.files with
      | .error m => .error m
      | .ok absolute_files => .ok (run_scan cli absolute_files cwd contents) := by
  unfold main_fallible
  rcases hex with hf | ⟨hne, hall⟩
  · rw [hf]
    simp
  · have h1 : cli.files.isEmpty = false := by
      rcases h : cli.files with _ | ⟨f, rest⟩
      · exact absurd h hne
      · simp
    have h2 : (cli.files.any fun a => !ex a) = false := by
      rw [List.any_eq_false]
      intro a ha
      rw [hall a ha]
      simp
    rw [h1, h2]
    simp

theorem process_entry_skipped_iff (cli : CliOptions) (pset : List (List String))
    (cwd : List String) (e : Entry) :
    process_entry cli pset cwd e = .skipped ↔ entry_abs cwd e ∈ pset := by
  constructor
  · intro h
    by_contra hm
    unfold process_entry at h
    rw [if_neg hm] at h
    rcases hk : e.kind with _ | isEmpty | t | _ <;> rw [hk] at h <;>
      dsimp only at h
    · exact EntryOutcome.noConfusion h
    · rcases hd : delete_dir cli isEmpty with m | m <;> rw [hd] at h <;>
        dsimp only at h <;> exact EntryOutcome.noConfusion h
    · exact EntryOutcome.noConfusion h
    · exact EntryOutcome.noConfusion h
  · intro hm
    unfold process_entry
    rw [if_pos hm]

theorem run_scan_noFail (cli : CliOptions) (pset : List (List String))
    (cwd : List String) (l : List Entry)
    (h : (run_scan cli pset cwd l).2 = false) :
    (run_scan cli pset cwd l).1 =
      l.filter (fun e => decide (entry_abs cwd e ∈ pset)) := by
  induction l with
  | nil => rfl
  | cons e rest ih =>
    unfold run_scan at h ⊢
    cases hpe : process_entry cli pset cwd e with
    | skipped =>
      rw [hpe] at h
      dsimp only at h ⊢
      have hmem := (process_entry_skipped_iff cli pset cwd e).mp hpe
      rw [List.filter_cons_of_pos (by simpa using hmem)]
      rw [ih h]
    | deleted =>
      rw [hpe] at h
      dsimp only at h ⊢
      have hmem : entry_abs cwd e ∉ pset := by
        intro hm
        rw [(process_entry_skipped_iff cli pset cwd e).mpr hm] at hpe
        exact EntryOutcome.noConfusion hpe
      rw [List.filter_cons_of_neg (by simpa using hmem)]
      exact ih h
    | failed m =>
      rw [hpe] at h
      dsimp only at h
      exact absurd h (by simp)

theorem run_scan_cons (cli : CliOptions) (pset : List (List String))
    (cwd : List String) (e : Entry) (rest : List Entry) :
    run_scan cli pset cwd (e :: rest) =
      match process_entry cli pset cwd e with
      | .skipped =>
        (e :: (run_scan cli pset cwd rest).1, (run_scan cli pset cwd rest).2)
      | .deleted => run_scan cli pset cwd rest
      | .failed _ => (e :: (run_scan cli pset cwd rest).1, true) := rfl

theorem isOkB_check_eq_of_abs_eq (cwd : List String) (p q : RawPath)
    (h : path_absolute cwd p = path_absolute cwd q) :
    isOkB (check_containment cwd p) = isOkB (check_containment cwd q) := by
  unfold check_containment
  rw [h]
  rcases hp : parentPath (path_absolute cwd q) with _ | par
  · rfl
  · dsimp only
    by_cases hpar : par ≠ cwd_absolute cwd
    · rw [if_pos hpar, if_pos hpar]
      rfl
    · rw [if_neg hpar, if_neg hpar]

/-! ## Claim theorems -/

/-- C3: for a non-preserved directory entry, the removal policy is: recursive
deletes unconditionally (taking precedence over the dirs flag); otherwise with
the dirs flag an empty directory is deleted and a non-empty one fails with the
not-empty error and remains; otherwise the entry fails with the is-a-directory
error and no deletion happens. -/
theorem delete_dir_policy (cli : CliOptions) (isEmpty : Bool)
    (pset : List (List String)) (cwd : List String) (e : Entry)
    (hk : e.kind = .dir isEmpty) (hmem : entry_abs cwd e ∉ pset) :
    (cli.recursive = true →
      delete_dir cli isEmpty = .ok () ∧
      process_entry cli pset cwd e = .deleted) ∧
    (cli.recursive = false → cli.dirs = true → isEmpty = true →
      delete_dir cli isEmpty = .ok () ∧
      process_entry cli pset cwd e = .deleted) ∧
    (cli.recursive = false → cli.dirs = true → isEmpty = false →
      delete_dir cli isEmpty = .error "Directory is not empty" ∧
      process_entry cli pset cwd e =
        .failed ("Cannot remove ./" ++ e.name ++ ": " ++ "Directory is not empty") ∧
      run_scan cli pset cwd [e] = ([e], true)) ∧
    (cli.recursive = false → cli.dirs = false →
      delete_dir cli isEmpty = .error "Is a directory" ∧
      process_entry cli pset cwd e =
        .failed ("Cannot remove ./" ++ e.name ++ ": " ++ "Is a directory") ∧
      run_scan cli pset cwd [e] = ([e], true)) := by
  have hbridge : ∀ m, delete_dir cli isEmpty = .error m →
      process_entry cli pset cwd e =
        .failed ("Cannot remove ./" ++ e.name ++ ": " ++ m) := by
    intro m hd
    unfold process_entry
    rw [if_neg hmem, hk]
    dsimp only
    rw [hd]
  have hok : delete_dir cli isEmpty = .ok () →
      process_entry cli pset cwd e = .deleted := by
    intro hd
    unfold process_entry
    rw [if_neg hmem, hk]
    dsimp only
    rw [hd]
  have hscan : ∀ m, process_entry cli pset cwd e = .failed m →
      run_scan cli pset cwd [e] = ([e], true) := by
    intro m hp
    rw [run_scan_cons, hp]
    all_goals rfl
  refine ⟨?_, ?_, ?_, ?_⟩
  · intro hr
    have hd : delete_dir cli isEmpty = .ok () := by
      unfold delete_dir
      rw [hr]
      simp
    exact ⟨hd, hok hd⟩
  · intro hr hdirs hemp
    have hd : delete_dir cli isEmpty = .ok () := by
      unfold delete_dir
      rw [hr, hdirs, hemp]
      simp
    exact ⟨hd, hok hd⟩
  · intro hr hdirs hemp
    have hd : delete_dir cli isEmpty = .error "Directory is not empty" := by
      unfold delete_dir
      rw [hr, hdirs, hemp]
      simp
    exact ⟨hd, hbridge _ hd, hscan _ (hbridge _ hd)⟩
  · intro hr hdirs
    have hd : delete_dir cli isEmpty = .error "Is a directory" := by
      unfold delete_dir
      rw [hr, hdirs]
      simp
    exact ⟨hd, hbridge _ hd, hscan _ (hbridge _ hd)⟩

/-- Witness for C3: with no flags, a non-empty directory at top level is
refused with the is-a-directory error and remains. -/
theorem delete_dir_policy_witness :
    delete_dir ⟨[], false, false, false⟩ false = .error "Is a directory" ∧
    process_entry ⟨[], false, false, false⟩ [] ["w"] ⟨"c", .dir false⟩ =
      .failed ("Cannot remove ./" ++ "c" ++ ": " ++ "Is a directory") ∧
    run_scan ⟨[], false, false, false⟩ [] ["w"] [⟨"c", .dir false⟩] =
      ([⟨"c", .dir false⟩], true) :=
  (delete_dir_policy ⟨[], false, false, false⟩ false [] ["w"] ⟨"c", .dir false⟩
    rfl (List.not_mem_nil _)).2.2.2 rfl rfl

/-- C4: a per-entry failure does not stop the scan (the result over an
appended list is the results of the parts, surviving entries concatenated and
failure flags disjoined), and in the concrete scenario with entries a, b,
c (non-empty directory), d, e, f, force set, no preserve-targets and neither
the recursive nor the dirs flag, the run exits non-zero with final contents
exactly the directory c. -/
theorem continue_on_error (cli : CliOptions) (pset : List (List String))
    (cwd : List String) (l1 l2 : List Entry) :
    run_scan cli pset cwd (l1 ++ l2) =
      ((run_scan cli pset cwd l1).1 ++ (run_scan cli pset cwd l2).1,
        ((run_scan cli pset cwd l1).2 || (run_scan cli pset cwd l2).2)) ∧
    leave_run ⟨[], false, false, true⟩ ["w"] (fun _ => true)
      [⟨"a", .file⟩, ⟨"b", .file⟩, ⟨"c", .dir false⟩, ⟨"d", .file⟩,
        ⟨"e", .file⟩, ⟨"f", .file⟩] = ([⟨"c", .dir false⟩], 1) := by
  constructor
  · induction l1 with
    | nil => simp [run_scan]
    | cons e rest ih =>
      rw [List.cons_append, run_scan_cons, run_scan_cons]
      cases hpe : process_entry cli pset cwd e <;> dsimp only <;> rw [ih] <;>
        simp
  · rfl

/-- C5: with the force flag unset and an empty preserve-list, the run aborts
before any deletion with the mistake-guard message directing the user to the
force flag, leaving the contents unchanged. -/
theorem empty_list_guard (cli : CliOptions) (cwd : List String)
    (ex : RawPath → Bool) (contents : List Entry)
    (hf : cli.force = false) (he : cli.files = []) :
    main_fallible cli cwd ex contents =
      .error ("No files provided. " ++ MISTAKE_MSG) ∧
    leave_run cli cwd ex contents = (contents, 1) := by
  have h1 : main_fallible cli cwd ex contents =
      .error ("No files provided. " ++ MISTAKE_MSG) := by
    unfold main_fallible
    rw [hf, he]
    simp
  refine ⟨h1, ?_⟩
  unfold leave_run
  rw [h1]

/-- Witness for C5 at a concrete run. -/
theorem empty_list_guard_witness :
    main_fallible ⟨[], false, false, false⟩ ["w"] (fun _ => true)
      [⟨"x", .file⟩] = .error ("No files provided. " ++ MISTAKE_MSG) ∧
    leave_run ⟨[], false, false, false⟩ ["w"] (fun _ => true)
      [⟨"x", .file⟩] = ([⟨"x", .file⟩], 1) :=
  empty_list_guard ⟨[], false, false, false⟩ ["w"] (fun _ => true)
    [⟨"x", .file⟩] rfl rfl

/-- C7: a non-preserved entry whose kind is not directory (file, symlink or
other) is deleted directly as an entry; the kind test uses the non-following
file type, so a symlink has is_dir false even when its target is a directory
and the link itself is removed without being followed. -/
theorem nondir_removed_directly (cli : CliOptions) (pset : List (List String))
    (cwd : List String) (e : Entry) (rest : List Entry)
    (hk : e.kind.is_dir = false) (hmem : entry_abs cwd e ∉ pset) :
    process_entry cli pset cwd e = .deleted ∧
    run_scan cli pset cwd (e :: rest) = run_scan cli pset cwd rest ∧
    (∀ b, FileKind.is_dir (.symlink b) = false) := by
  have hp : process_entry cli pset cwd e = .deleted := by
    unfold process_entry
    rw [if_neg hmem]
    rcases hke : e.kind with _ | isEmpty | t | _
    · rfl
    · rw [hke] at hk
      simp [FileKind.is_dir] at hk
    · rfl
    · rfl
  refine ⟨hp, ?_, fun b => rfl⟩
  rw [run_scan_cons, hp]

/-- Witness for C7: a symlink whose target is a directory is removed as a
link. -/
theorem nondir_removed_directly_witness :
    process_entry ⟨[], false, false, true⟩ [] ["w"] ⟨"s", .symlink true⟩ =
      .deleted ∧
    run_scan ⟨[], false, false, true⟩ [] ["w"]
        [⟨"s", .symlink true⟩, ⟨"k", .file⟩] =
      run_scan ⟨[], false, false, true⟩ [] ["w"] [⟨"k", .file⟩] ∧
    FileKind.is_dir (.symlink true) = false :=
  ⟨(nondir_removed_directly ⟨[], false, false, true⟩ [] ["w"]
      ⟨"s", .symlink true⟩ [⟨"k", .file⟩] rfl (List.not_mem_nil _)).1,
   (nondir_removed_directly ⟨[], false, false, true⟩ [] ["w"]
      ⟨"s", .symlink true⟩ [⟨"k", .file⟩] rfl (List.not_mem_nil _)).2.1,
   (nondir_removed_directly ⟨[], false, false, true⟩ [] ["w"]
      ⟨"s", .symlink true⟩ [⟨"k", .file⟩] rfl (List.not_mem_nil _)).2.2 true⟩

/-- C8: the spellings ./x and ././x of a relative path resolve to the same
absolute path as x, so the containment gate gives the same accept/reject
decision for all three. -/
theorem containment_dot_invariant (cwd : List String) (x : List String) :
    path_absolute cwd ⟨false, "." :: x⟩ = path_absolute cwd ⟨false, x⟩ ∧
    path_absolute cwd ⟨false, "." :: "." :: x⟩ = path_absolute cwd ⟨false, x⟩ ∧
    isOkB (check_containment cwd ⟨false, "." :: x⟩) =
      isOkB (check_containment cwd ⟨false, x⟩) ∧
    isOkB (check_containment cwd ⟨false, "." :: "." :: x⟩) =
      isOkB (check_containment cwd ⟨false, x⟩) := by
  have h1 : path_absolute cwd ⟨false, "." :: x⟩ =
      path_absolute cwd ⟨false, x⟩ := by
    simp [path_absolute]
  have h2 : path_absolute cwd ⟨false, "." :: "." :: x⟩ =
      path_absolute cwd ⟨false, x⟩ := by
    simp [path_absolute]
  exact ⟨h1, h2, isOkB_check_eq_of_abs_eq cwd _ _ h1,
    isOkB_check_eq_of_abs_eq cwd _ _ h2⟩

/-- C1: for a run that completes with no errors, the final contents are
exactly the original entries whose absolute path lies in the preserve set:
preserved entries are skipped and survive regardless of flags, every other
entry is deleted. -/
theorem final_contents_eq_preserved (cli : CliOptions) (cwd : List String)
    (ex : RawPath → Bool) (contents final : List Entry)
    (h : main_fallible cli cwd ex contents = .ok (final, false)) :
    ∃ pset, containment_gate cwd cli.files = .ok pset ∧
      final = contents.filter (fun e => decide (entry_abs cwd e ∈ pset)) := by
  unfold main_fallible at h
  by_cases h1 : (!cli.force && cli.files.isEmpty) = true
  · rw [if_pos h1] at h
    exact Except.noConfusion h
  · rw [if_neg h1] at h
    by_cases h2 : (!cli.force && cli.files.any fun a => !ex a) = true
    · rw [if_pos h2] at h
      exact Except.noConfusion h
    · rw [if_neg h2] at h
      rcases hg : containment_gate cwd cli.files with m | pset <;> rw [hg] at h
      · exact Except.noConfusion h
      · injection h with h
        refine ⟨pset, rfl, ?_⟩
        have hfail : (run_scan cli pset cwd contents).2 = false := by
          rw [h]
        have hfin := run_scan_noFail cli pset cwd contents hfail
        rw [h] at hfin
        exact hfin

/-- Witness for C1: preserving file1 among three files keeps exactly file1. -/
theorem final_contents_eq_preserved_witness :
    ∃ pset, containment_gate ["w"]
        (CliOptions.files ⟨[⟨false, ["file1"]⟩], false, false, false⟩) =
        .ok pset ∧
      ([⟨"file1", FileKind.file⟩] : List Entry) =
        ([⟨"file1", .file⟩, ⟨"file2", .file⟩, ⟨"file3", .file⟩] :
            List Entry).filter
          (fun e => decide (entry_abs ["w"] e ∈ pset)) :=
  final_contents_eq_preserved ⟨[⟨false, ["file1"]⟩], false, false, false⟩
    ["w"] (fun _ => true)
    [⟨"file1", .file⟩, ⟨"file2", .file⟩, ⟨"file3", .file⟩]
    [⟨"file1", .file⟩] rfl

/-- C2 counterexample: a preserve-target that resolves to the filesystem root
has a parent different from the working directory (it has no parent at all),
yet the run does not abort: the gate accepts it and deletion proceeds.  This
refutes the claim that any target whose resolved parent differs from the
working directory aborts the run, and refutes the invariant that every
preserve-set member has the working directory as parent. -/
theorem containment_root_counterexample :
    parentPath (path_absolute ["home"] ⟨true, []⟩) ≠
      some (cwd_absolute ["home"]) ∧
    containment_gate ["home"] [⟨true, []⟩] = .ok [[]] ∧
    main_fallible ⟨[⟨true, []⟩], false, false, true⟩ ["home"] (fun _ => true)
      [⟨"y", .file⟩] = .ok ([], false) :=
  ⟨fun h => Option.noConfusion h, rfl, rfl⟩

/-- C2 amended: the containment gate rejects a preserve-target exactly when
its resolved path has a parent and that parent differs from the resolved
working directory; when some target is rejected (and the existence gate
passes) the whole run aborts before any deletion with a diagnostic naming an
offending target, and every member of an accepted preserve set has the
working directory as parent or has no parent at all (the filesystem root). -/
theorem containment_gate_amended (cli : CliOptions) (cwd : List String)
    (ex : RawPath → Bool) (contents : List Entry)
    (hex : cli.force = true ∨ (cli.files ≠ [] ∧ ∀ a ∈ cli.files, ex a = true)) :
    ((∃ p ∈ cli.files, ∃ q, parentPath (path_absolute cwd p) = some q ∧
        q ≠ cwd_absolute cwd) →
      ∃ p0 ∈ cli.files,
        main_fallible cli cwd ex contents = .error (containment_msg p0) ∧
        leave_run cli cwd ex contents = (contents, 1)) ∧
    (∀ pset, containment_gate cwd cli.files = .ok pset →
      ∀ x ∈ pset, parentPath x = some (cwd_absolute cwd) ∨
        parentPath x = none) := by
  constructor
  · rintro ⟨p, hp, q, hq, hne⟩
    have hperr := check_containment_err_of_parent cwd p q hq hne
    rcases containment_gate_error_total cwd cli.files ⟨p, hp, hperr⟩ with
      ⟨p0, hp0, hgate⟩
    have hmf : main_fallible cli cwd ex contents =
        .error (containment_msg p0) := by
      rw [main_fallible_after_gates cli cwd ex contents hex, hgate]
    refine ⟨p0, hp0, hmf, ?_⟩
    unfold leave_run
    rw [hmf]
  · intro pset hg x hx
    rcases containment_gate_ok_all cwd cli.files pset hg x hx with ⟨p, _, hok⟩
    exact check_containment_ok_parent cwd p x hok

/-- Witness for C2 amended: the target x/y in working directory /w is
rejected and the run aborts with no deletions. -/
theorem containment_gate_amended_witness :
    ∃ p0 ∈ [(⟨false, ["x", "y"]⟩ : RawPath)],
      main_fallible ⟨[⟨false, ["x", "y"]⟩], false, false, true⟩ ["w"]
        (fun _ => true) [⟨"z", .file⟩] = .error (containment_msg p0) ∧
      leave_run ⟨[⟨false, ["x", "y"]⟩], false, false, true⟩ ["w"]
        (fun _ => true) [⟨"z", .file⟩] = ([⟨"z", .file⟩], 1) :=
  (containment_gate_amended ⟨[⟨false, ["x", "y"]⟩], false, false, true⟩ ["w"]
      (fun _ => true) [⟨"z", .file⟩] (Or.inl rfl)).1
    ⟨⟨false, ["x", "y"]⟩, List.mem_singleton.mpr rfl, ["w", "x"], rfl,
      by decide⟩

/-- C6: with the force flag unset, every missing preserve-target gets a
warning (all targets are checked) and the whole run fails before any
deletion, leaving the contents unchanged with a non-zero exit status. -/
theorem missing_target_guard (cli : CliOptions) (cwd : List String)
    (ex : RawPath → Bool) (contents : List Entry)
    (hf : cli.force = false) (t : RawPath) (ht : t ∈ cli.files)
    (hmiss : ex t = false) :
    (∀ a ∈ cli.files, ex a = false → a ∈ existence_warnings cli ex) ∧
    main_fallible cli cwd ex contents =
      .error ("One or more provided files do not exist. " ++ MISTAKE_MSG) ∧
    leave_run cli cwd ex contents = (contents, 1) := by
  have hne : cli.files.isEmpty = false := by
    rcases hl : cli.files with _ | ⟨f, rest⟩
    · rw [hl] at ht
      exact absurd ht (List.not_mem_nil t)
    · simp
  have hany : (cli.files.any fun a => !ex a) = true := by
    rw [List.any_eq_true]
    exact ⟨t, ht, by rw [hmiss]; rfl⟩
  have hmf : main_fallible cli cwd ex contents =
      .error ("One or more provided files do not exist. " ++ MISTAKE_MSG) := by
    unfold main_fallible
    rw [hf, hne, hany]
    simp
  refine ⟨?_, hmf, ?_⟩
  · intro a ha hax
    unfold existence_warnings
    rw [hf, hne]
    simp only [Bool.false_eq_true, if_false, List.isEmpty_eq_false]
    exact List.mem_filter.mpr ⟨ha, by rw [hax]; rfl⟩
  · unfold leave_run
    rw [hmf]

/-- Witness for C6: preserving the nonexistent file2 in a directory holding
file1 aborts the run with nothing deleted. -/
theorem missing_target_guard_witness :
    ((⟨false, ["file2"]⟩ : RawPath) ∈
      existence_warnings ⟨[⟨false, ["file2"]⟩], false, false, false⟩
        (fun _ => false)) ∧
    main_fallible ⟨[⟨false, ["file2"]⟩], false, false, false⟩ ["w"]
      (fun _ => false) [⟨"file1", .file⟩] =
      .error ("One or more provided files do not exist. " ++ MISTAKE_MSG) ∧
    leave_run ⟨[⟨false, ["file2"]⟩], false, false, false⟩ ["w"]
      (fun _ => false) [⟨"file1", .file⟩] = ([⟨"file1", .file⟩], 1) :=
  ⟨(missing_target_guard ⟨[⟨false, ["file2"]⟩], false, false, false⟩ ["w"]
      (fun _ => false) [⟨"file1", .file⟩] rfl ⟨false, ["file2"]⟩
      (List.mem_singleton.mpr rfl) rfl).1 ⟨false, ["file2"]⟩
      (List.mem_singleton.mpr rfl) rfl,
   (missing_target_guard ⟨[⟨false, ["file2"]⟩], false, false, false⟩ ["w"]
      (fun _ => false) [⟨"file1", .file⟩] rfl ⟨false, ["file2"]⟩
      (List.mem_singleton.mpr rfl) rfl).2.1,
   (missing_target_guard ⟨[⟨false, ["file2"]⟩], false, false, false⟩ ["w"]
      (fun _ => false) [⟨"file1", .file⟩] rfl ⟨false, ["file2"]⟩
      (List.mem_singleton.mpr rfl) rfl).2.2⟩

/-- C9: a preserve-target written as a deeper relative path a/b resolves to a
path whose parent is the working directory joined with a, not the working
directory itself, so the gate rejects it and the run aborts — even though the
sibling target a on its own is accepted. -/
theorem deeper_target_rejected (cwd : List String) (a b : String)
    (cli : CliOptions) (ex : RawPath → Bool) (contents : List Entry)
    (ha : a ≠ ".") (hb : b ≠ ".")
    (hfiles : cli.files = [⟨false, [a]⟩, ⟨false, [a, b]⟩])
    (hforce : cli.force = true) :
    parentPath (path_absolute cwd ⟨false, [a, b]⟩) =
      some (cwd_absolute cwd ++ [a]) ∧
    check_containment cwd ⟨false, [a]⟩ = .ok (cwd_absolute cwd ++ [a]) ∧
    check_containment cwd ⟨false, [a, b]⟩ =
      .error (containment_msg ⟨false, [a, b]⟩) ∧
    main_fallible cli cwd ex contents =
      .error (containment_msg ⟨false, [a, b]⟩) ∧
    leave_run cli cwd ex contents = (contents, 1) := by
  have hpar : parentPath (path_absolute cwd ⟨false, [a, b]⟩) =
      some (cwd_absolute cwd ++ [a]) := by
    rw [path_absolute_pair cwd a b ha hb]
    have h1 : cwd_absolute cwd ++ [a, b] =
        (cwd_absolute cwd ++ [a]) ++ [b] := by
      simp
    rw [h1, parentPath_concat]
  have hok := check_containment_single_ok cwd a ha
  have herr := check_containment_pair_err cwd a b ha hb
  have hgate : containment_gate cwd cli.files =
      .error (containment_msg ⟨false, [a, b]⟩) := by
    rw [hfiles]
    unfold containment_gate
    rw [hok]
    dsimp only
    unfold containment_gate
    rw [herr]
  have hmf : main_fallible cli cwd ex contents =
      .error (containment_msg ⟨false, [a, b]⟩) := by
    rw [main_fallible_after_gates cli cwd ex contents (Or.inl hforce), hgate]
  refine ⟨hpar, hok, herr, hmf, ?_⟩
  unfold leave_run
  rw [hmf]

/-- Witness for C9 at the concrete targets a and a/b in working directory
/w. -/
theorem deeper_target_rejected_witness :
    check_containment ["w"] ⟨false, ["a", "b"]⟩ =
      .error (containment_msg ⟨false, ["a", "b"]⟩) ∧
    main_fallible ⟨[⟨false, ["a"]⟩, ⟨false, ["a", "b"]⟩], false, false, true⟩
      ["w"] (fun _ => true) [] =
      .error (containment_msg ⟨false, ["a", "b"]⟩) ∧
    leave_run ⟨[⟨false, ["a"]⟩, ⟨false, ["a", "b"]⟩], false, false, true⟩
      ["w"] (fun _ => true) [] = ([], 1) :=
  ⟨(deeper_target_rejected ["w"] "a" "b"
      ⟨[⟨false, ["a"]⟩, ⟨false, ["a", "b"]⟩], false, false, true⟩
      (fun _ => true) [] (by decide) (by decide) rfl rfl).2.2.1,
   (deeper_target_rejected ["w"] "a" "b"
      ⟨[⟨false, ["a"]⟩, ⟨false, ["a", "b"]⟩], false, false, true⟩
      (fun _ => true) [] (by decide) (by decide) rfl rfl).2.2.2.1,
   (deeper_target_rejected ["w"] "a" "b"
      ⟨[⟨false, ["a"]⟩, ⟨false, ["a", "b"]⟩], false, false, true⟩
      (fun _ => true) [] (by decide) (by decide) rfl rfl).2.2.2.2⟩

/-- C10: a preserve-target resolving to the filesystem root has no parent, so
the parent-mismatch test is vacuously false and the gate accepts it; the
preserve set then contains a path that is not a direct child of the working
directory and the run proceeds to deletion. -/
theorem root_target_vacuously_accepted :
    parentPath (path_absolute ["tmp"] ⟨true, []⟩) = none ∧
    check_containment ["tmp"] ⟨true, []⟩ = .ok [] ∧
    containment_gate ["tmp"] [⟨true, []⟩] = .ok [[]] ∧
    (([] : List String) ∈ [([] : List String)] ∧
      ∀ q, parentPath ([] : List String) ≠ some q) ∧
    main_fallible ⟨[⟨true, []⟩], false, false, true⟩ ["tmp"] (fun _ => true)
      [⟨"x", .file⟩] = .ok ([], false) :=
  ⟨rfl, rfl, rfl, ⟨List.mem_singleton.mpr rfl, fun _ h => Option.noConfusion h⟩,
    rfl⟩

end Leave
